import Mathlib

/-!
Verification of the DPlus_Simulator debounced switch controller
(`src/dplus_sim.py`) against its natural-language specification.

The Python code is shallowly embedded: Python `float` becomes `ℚ`
(the claims under study are about ordering, delays and branch logic,
not about binary rounding), Python `dict` with string keys becomes an
association list `List (String × α)` whose keys are unique by
construction, `None` becomes `Option.none`, and raised exceptions
become `Except`.
-/

namespace DPlusSim

/-- Python dict with string keys, as an association list.  Lookup is the
first entry with a matching key (the embedded dicts never hold a
duplicate key, so this matches Python lookup). -/
def dictGet? {α : Type} (d : List (String × α)) (k : String) : Option α :=
  (d.find? fun kv => decide (kv.1 = k)).map (fun kv => kv.2)

/-- Python `base.update(upd)`: existing keys keep their position but take
the updated value, new keys are appended in order. -/
def dictUpdate {α : Type} (base upd : List (String × α)) : List (String × α) :=
  (base.map fun kv =>
    match upd.find? (fun kv2 => decide (kv2.1 = kv.1)) with
    | some kv2 => (kv.1, kv2.2)
    | none => kv)
  ++ upd.filter fun kv2 => !(base.any fun kv => decide (kv.1 = kv2.1))

/-- State of the `SwitchLogic` dataclass (src/dplus_sim.py, lines 1162-1187). -/
structure SwitchLogic where
  on_threshold : ℚ
  off_threshold : ℚ
  hysteresis : ℚ
  on_delay : ℚ
  off_delay : ℚ
  state : Bool := false
  pending_state : Option Bool := none
  deadline : Option ℚ := none
  deriving DecidableEq, Repr

/-- `SwitchLogic.configure`: replaces thresholds and delays and clears any
pending transition (lines 1173-1187). -/
def SwitchLogic.configure (s : SwitchLogic)
    (on_threshold off_threshold hysteresis on_delay off_delay : ℚ) : SwitchLogic :=
  { s with
    on_threshold := on_threshold
    off_threshold := off_threshold
    hysteresis := hysteresis
    on_delay := on_delay
    off_delay := off_delay
    pending_state := none
    deadline := none }

/-- `SwitchLogic._compute_thresholds` (lines 1189-1200): the half-hysteresis
adjustment is applied only for `hysteresis > 0`; an inverted band collapses
to the common midpoint. -/
def SwitchLogic.computeThresholds (s : SwitchLogic) : ℚ × ℚ :=
  let upper := s.on_threshold
  let lower := s.off_threshold
  let upper := if s.hysteresis > 0 then upper + s.hysteresis / 2 else upper
  let lower := if s.hysteresis > 0 then lower - s.hysteresis / 2 else lower
  if upper < lower then
    let midpoint := (upper + lower) / 2
    (midpoint, midpoint)
  else
    (upper, lower)

/-- `SwitchLogic.thresholds` (lines 1202-1203). -/
def SwitchLogic.thresholds (s : SwitchLogic) : ℚ × ℚ :=
  s.computeThresholds

/-- The branch cascade in the middle of `SwitchLogic.evaluate`
(lines 1226-1266), acting on the mutable fields; returns the updated
switch together with `changed`. -/
def SwitchLogic.transition (s : SwitchLogic) (now : ℚ)
    (on_ready off_required force_on force_off : Bool) : SwitchLogic × Bool :=
  let force_off_active := force_off
  let force_on_active := force_on && !force_off_active
  if force_off_active then
    ({ s with state := false, pending_state := none, deadline := none }, s.state)
  else if force_on_active then
    ({ s with state := true, pending_state := none, deadline := none }, !s.state)
  else if s.state then
    if off_required then
      if s.pending_state ≠ some false then
        ({ s with pending_state := some false, deadline := some (now + s.off_delay) }, false)
      else
        match s.deadline with
        | some d =>
          if now ≥ d then
            ({ s with state := false, pending_state := none, deadline := none }, true)
          else (s, false)
        | none => (s, false)
    else if s.pending_state = some false then
      ({ s with pending_state := none, deadline := none }, false)
    else (s, false)
  else
    if on_ready then
      if s.pending_state ≠ some true then
        ({ s with pending_state := some true, deadline := some (now + s.on_delay) }, false)
      else
        match s.deadline with
        | some d =>
          if now ≥ d then
            ({ s with state := true, pending_state := none, deadline := none }, true)
          else (s, false)
        | none => (s, false)
    else if s.pending_state = some true then
      ({ s with pending_state := none, deadline := none }, false)
    else (s, false)

/-- The result dictionary returned by `SwitchLogic.evaluate`
(lines 1277-1294). -/
structure EvalResult where
  state : Bool
  pending_state : Option Bool
  deadline : Option ℚ
  changed : Bool
  upper_threshold : ℚ
  lower_threshold : ℚ
  conditions_on : List (String × Bool)
  conditions_off : List (String × Bool)
  on_ready : Bool
  off_required : Bool
  force_on_active : Bool
  force_off_active : Bool
  pending_direction : String
  on_delay_remaining : ℚ
  off_delay_remaining : ℚ
  deriving DecidableEq, Repr

/-- `SwitchLogic.evaluate` (lines 1205-1294): merges the voltage decision
into the caller's condition dicts, computes `on_ready` / `off_required`,
runs the branch cascade, and assembles the result dictionary.  Returns
the updated switch (the Python method mutates `self`) and the result. -/
def SwitchLogic.evaluate (s : SwitchLogic) (voltage now : ℚ)
    (on_dependencies off_dependencies : List (String × Bool))
    (force_on force_off : Bool) : SwitchLogic × EvalResult :=
  let th := s.computeThresholds
  let upper := th.1
  let lower := th.2
  let voltage_on := decide (voltage ≥ upper)
  let voltage_off := decide (voltage ≤ lower)
  let conditions_on := dictUpdate [("voltage", voltage_on)] on_dependencies
  let conditions_off := dictUpdate [("voltage", voltage_off)] off_dependencies
  let on_ready := conditions_on.all fun kv => kv.2
  let off_required := conditions_off.any fun kv => kv.2
  let force_off_active := force_off
  let force_on_active := force_on && !force_off_active
  let next := s.transition now on_ready off_required force_on force_off
  let s' := next.1
  let changed := next.2
  let tail :=
    match s'.pending_state, s'.deadline with
    | some true, some d => ("on", max 0 (d - now), (0 : ℚ))
    | some false, some d => ("off", (0 : ℚ), max 0 (d - now))
    | _, _ => ("none", (0 : ℚ), (0 : ℚ))
  (s',
   { state := s'.state
     pending_state := s'.pending_state
     deadline := s'.deadline
     changed := changed
     upper_threshold := upper
     lower_threshold := lower
     conditions_on := conditions_on
     conditions_off := conditions_off
     on_ready := on_ready
     off_required := off_required
     force_on_active := force_on_active
     force_off_active := force_off_active
     pending_direction := tail.1
     on_delay_remaining := tail.2.1
     off_delay_remaining := tail.2.2 })

/-- One call of `SwitchLogic.evaluate`, as seen from a trace. -/
structure EvalInput where
  voltage : ℚ
  now : ℚ
  onDeps : List (String × Bool)
  offDeps : List (String × Bool)
  forceOn : Bool
  forceOff : Bool
  deriving DecidableEq, Repr

/-- The state transformer of one `evaluate` call. -/
def step (s : SwitchLogic) (inp : EvalInput) : SwitchLogic :=
  (s.evaluate inp.voltage inp.now inp.onDeps inp.offDeps inp.forceOn inp.forceOff).1

/-- The claims' voltage-on condition: the measurement reaches the upper
threshold and every auxiliary on-condition is satisfied. -/
def onCond (s : SwitchLogic) (inp : EvalInput) : Bool :=
  decide (inp.voltage ≥ s.computeThresholds.1) && (inp.onDeps.all fun kv => kv.2)

/-- The `on_ready` value computed inside `evaluate`. -/
def onReadyOf (s : SwitchLogic) (inp : EvalInput) : Bool :=
  (dictUpdate [("voltage", decide (inp.voltage ≥ s.computeThresholds.1))] inp.onDeps).all
    fun kv => kv.2

/-- The `off_required` value computed inside `evaluate`. -/
def offRequiredOf (s : SwitchLogic) (inp : EvalInput) : Bool :=
  (dictUpdate [("voltage", decide (inp.voltage ≤ s.computeThresholds.2))] inp.offDeps).any
    fun kv => kv.2

lemma step_eq_transition (s : SwitchLogic) (inp : EvalInput) :
    step s inp =
      (s.transition inp.now (onReadyOf s inp) (offRequiredOf s inp) inp.forceOn inp.forceOff).1 :=
  rfl

lemma dictUpdate_singleton_of_no_key {α : Type} (k : String) (v : α)
    (deps : List (String × α)) (h : ∀ kv ∈ deps, kv.1 ≠ k) :
    dictUpdate [(k, v)] deps = (k, v) :: deps := by
  unfold dictUpdate
  have h1 : deps.find? (fun kv2 => decide (kv2.1 = k)) = none := by
    apply List.find?_eq_none.mpr
    intro x hx
    simpa using h x hx
  have h2 : (deps.filter fun kv2 => !([(k, v)].any fun kv => decide (kv.1 = kv2.1))) = deps := by
    apply List.filter_eq_self.mpr
    intro x hx
    have := h x hx
    simp [this, Ne.symm this]
  simp [h1, h2]
  intro a b hab
  exact fun hk => (h (a, b) hab) hk.symm

lemma onReadyOf_eq_onCond (s : SwitchLogic) (inp : EvalInput)
    (h : ∀ kv ∈ inp.onDeps, kv.1 ≠ "voltage") :
    onReadyOf s inp = onCond s inp := by
  unfold onReadyOf onCond
  rw [dictUpdate_singleton_of_no_key _ _ _ h]
  simp

lemma transition_skip (s : SwitchLogic) (now : ℚ) (offr : Bool)
    (h1 : s.state = false) (h2 : s.pending_state ≠ some true) :
    s.transition now false offr false false = (s, false) := by
  simp [SwitchLogic.transition, h1, h2]

lemma transition_arm_on (s : SwitchLogic) (now : ℚ) (offr : Bool)
    (h1 : s.state = false) (h2 : s.pending_state ≠ some true) :
    s.transition now true offr false false =
      ({ s with pending_state := some true, deadline := some (now + s.on_delay) }, false) := by
  simp [SwitchLogic.transition, h1, h2]

lemma transition_hold_on (s : SwitchLogic) (now d : ℚ) (offr : Bool)
    (h1 : s.state = false) (h2 : s.pending_state = some true)
    (h3 : s.deadline = some d) (h4 : now < d) :
    s.transition now true offr false false = (s, false) := by
  simp [SwitchLogic.transition, h1, h2, h3, not_le.mpr h4]

lemma transition_commit_on (s : SwitchLogic) (now d : ℚ) (offr : Bool)
    (h1 : s.state = false) (h2 : s.pending_state = some true)
    (h3 : s.deadline = some d) (h4 : now ≥ d) :
    s.transition now true offr false false =
      ({ s with state := true, pending_state := none, deadline := none }, true) := by
  simp [SwitchLogic.transition, h1, h2, h3, h4]

lemma transition_cancel_on (s : SwitchLogic) (now : ℚ) (offr : Bool)
    (h1 : s.state = false) (h2 : s.pending_state = some true) :
    s.transition now false offr false false =
      ({ s with pending_state := none, deadline := none }, false) := by
  simp [SwitchLogic.transition, h1, h2]

lemma transition_arm_off (s : SwitchLogic) (now : ℚ) (onr : Bool)
    (h1 : s.state = true) (h2 : s.pending_state ≠ some false) :
    s.transition now onr true false false =
      ({ s with pending_state := some false, deadline := some (now + s.off_delay) }, false) := by
  simp [SwitchLogic.transition, h1, h2]

lemma transition_commit_off (s : SwitchLogic) (now d : ℚ) (onr : Bool)
    (h1 : s.state = true) (h2 : s.pending_state = some false)
    (h3 : s.deadline = some d) (h4 : now ≥ d) :
    s.transition now onr true false false =
      ({ s with state := false, pending_state := none, deadline := none }, true) := by
  simp [SwitchLogic.transition, h1, h2, h3, h4]

lemma transition_arm_off_eq (s : SwitchLogic) (now : ℚ) (onr offr : Bool)
    (hoffr : offr = true) (h1 : s.state = true) (h2 : s.pending_state ≠ some false) :
    s.transition now onr offr false false =
      ({ s with pending_state := some false, deadline := some (now + s.off_delay) }, false) := by
  subst hoffr
  exact transition_arm_off s now onr h1 h2

lemma transition_commit_off_eq (s : SwitchLogic) (now d : ℚ) (onr offr : Bool)
    (hoffr : offr = true) (h1 : s.state = true) (h2 : s.pending_state = some false)
    (h3 : s.deadline = some d) (h4 : now ≥ d) :
    s.transition now onr offr false false =
      ({ s with state := false, pending_state := none, deadline := none }, true) := by
  subst hoffr
  exact transition_commit_off s now d onr h1 h2 h3 h4

/-- An `evaluate` call with both force flags clear whose on-dependency
dict does not override the merged "voltage" entry (as in the controller,
which only passes "ignition" and "voltage_source" keys). -/
def plainInput (inp : EvalInput) : Prop :=
  inp.forceOn = false ∧ inp.forceOff = false ∧ ∀ kv ∈ inp.onDeps, kv.1 ≠ "voltage"

lemma step_skip (s : SwitchLogic) (inp : EvalInput) (hp : plainInput inp)
    (h1 : s.state = false) (h2 : s.pending_state ≠ some true)
    (hc : onCond s inp = false) : step s inp = s := by
  obtain ⟨hfOn, hfOff, hnv⟩ := hp
  rw [step_eq_transition, hfOn, hfOff, onReadyOf_eq_onCond _ _ hnv, hc,
    transition_skip _ _ _ h1 h2]

lemma step_arm (s : SwitchLogic) (inp : EvalInput) (hp : plainInput inp)
    (h1 : s.state = false) (h2 : s.pending_state ≠ some true)
    (hc : onCond s inp = true) :
    step s inp =
      { s with pending_state := some true, deadline := some (inp.now + s.on_delay) } := by
  obtain ⟨hfOn, hfOff, hnv⟩ := hp
  rw [step_eq_transition, hfOn, hfOff, onReadyOf_eq_onCond _ _ hnv, hc,
    transition_arm_on _ _ _ h1 h2]

lemma step_hold (s : SwitchLogic) (inp : EvalInput) (d : ℚ) (hp : plainInput inp)
    (h1 : s.state = false) (h2 : s.pending_state = some true)
    (h3 : s.deadline = some d) (h4 : inp.now < d)
    (hc : onCond s inp = true) : step s inp = s := by
  obtain ⟨hfOn, hfOff, hnv⟩ := hp
  rw [step_eq_transition, hfOn, hfOff, onReadyOf_eq_onCond _ _ hnv, hc,
    transition_hold_on _ _ _ _ h1 h2 h3 h4]

lemma step_commit (s : SwitchLogic) (inp : EvalInput) (d : ℚ) (hp : plainInput inp)
    (h1 : s.state = false) (h2 : s.pending_state = some true)
    (h3 : s.deadline = some d) (h4 : inp.now ≥ d)
    (hc : onCond s inp = true) :
    step s inp = { s with state := true, pending_state := none, deadline := none } := by
  obtain ⟨hfOn, hfOff, hnv⟩ := hp
  rw [step_eq_transition, hfOn, hfOff, onReadyOf_eq_onCond _ _ hnv, hc,
    transition_commit_on _ _ _ _ h1 h2 h3 h4]

lemma step_cancel (s : SwitchLogic) (inp : EvalInput) (hp : plainInput inp)
    (h1 : s.state = false) (h2 : s.pending_state = some true)
    (hc : onCond s inp = false) :
    step s inp = { s with pending_state := none, deadline := none } := by
  obtain ⟨hfOn, hfOff, hnv⟩ := hp
  rw [step_eq_transition, hfOn, hfOff, onReadyOf_eq_onCond _ _ hnv, hc,
    transition_cancel_on _ _ _ h1 h2]

/-- Middle part of the debounce trace: while the pending-on deadline is in
the future the armed state is held, and the call where the condition
ceases cancels the pending transition without the state ever flipping. -/
lemma trace_mid (rest : List EvalInput) (s : SwitchLogic) (lastI : EvalInput) (d : ℚ)
    (h1 : s.state = false) (h2 : s.pending_state = some true) (h3 : s.deadline = some d)
    (hrest : ∀ inp ∈ rest, plainInput inp ∧ onCond s inp = true ∧ inp.now < d)
    (hlp : plainInput lastI) (hlc : onCond s lastI = false) :
    (∀ n, (List.foldl step s ((rest ++ [lastI]).take n)).state = false)
    ∧ List.foldl step s (rest ++ [lastI]) =
        { s with pending_state := none, deadline := none } := by
  induction rest with
  | nil =>
    have hcancel : step s lastI = { s with pending_state := none, deadline := none } :=
      step_cancel s lastI hlp h1 h2 hlc
    refine ⟨?_, by simpa [List.foldl] using hcancel⟩
    intro n
    match n with
    | 0 => simpa [List.foldl] using h1
    | Nat.succ m => simp [List.foldl, hcancel, h1]
  | cons r rest ih =>
    have hr := hrest r (by simp)
    have hstep : step s r = s := step_hold s r d hr.1 h1 h2 h3 hr.2.2 hr.2.1
    have ih' := ih (fun inp hinp => hrest inp (by simp [hinp]))
    refine ⟨?_, ?_⟩
    · intro n
      match n with
      | 0 => simpa [List.foldl] using h1
      | Nat.succ m => simpa [List.foldl, hstep] using ih'.1 m
    · simpa [List.foldl, hstep] using ih'.2

/-- Full debounce trace: a prefix where the condition does not hold, a
block where it holds but whose deadline never falls due, and a final call
where it ceases.  The state stays `false` at every prefix of the trace and
the pending transition ends cancelled. -/
lemma trace_main (pre : List EvalInput) (s0 : SwitchLogic) (m0 : EvalInput)
    (rest : List EvalInput) (lastI : EvalInput)
    (hstate : s0.state = false) (hpend : s0.pending_state = none)
    (hpre : ∀ inp ∈ pre, plainInput inp ∧ onCond s0 inp = false)
    (hm0p : plainInput m0) (hm0c : onCond s0 m0 = true)
    (hrest : ∀ inp ∈ rest,
      plainInput inp ∧ onCond s0 inp = true ∧ inp.now < m0.now + s0.on_delay)
    (hlp : plainInput lastI) (hlc : onCond s0 lastI = false) :
    (∀ n, (List.foldl step s0 ((pre ++ m0 :: rest ++ [lastI]).take n)).state = false)
    ∧ List.foldl step s0 (pre ++ m0 :: rest ++ [lastI]) =
        { s0 with pending_state := none, deadline := none } := by
  have hnotpend : s0.pending_state ≠ some true := by rw [hpend]; simp
  induction pre with
  | nil =>
    have harm : step s0 m0 =
        { s0 with pending_state := some true, deadline := some (m0.now + s0.on_delay) } :=
      step_arm s0 m0 hm0p hstate hnotpend hm0c
    set s1 : SwitchLogic :=
      { s0 with pending_state := some true, deadline := some (m0.now + s0.on_delay) } with hs1
    have hmid := trace_mid rest s1 lastI (m0.now + s0.on_delay)
      (by simpa [hs1] using hstate) (by simp [hs1]) (by simp [hs1])
      (fun inp hinp => (hrest inp hinp))
      hlp hlc
    refine ⟨?_, ?_⟩
    · intro n
      match n with
      | 0 => simpa [List.foldl] using hstate
      | Nat.succ m => simpa [List.foldl, harm] using hmid.1 m
    · simpa [List.foldl, harm] using hmid.2
  | cons p pre ih =>
    have hp := hpre p (by simp)
    have hstep : step s0 p = s0 := step_skip s0 p hp.1 hstate hnotpend hp.2
    have ih' := ih (fun inp hinp => hpre inp (by simp [hinp]))
    refine ⟨?_, ?_⟩
    · intro n
      match n with
      | 0 => simpa [List.foldl] using hstate
      | Nat.succ m => simpa [List.foldl, hstep] using ih'.1 m
    · simpa [List.foldl, hstep] using ih'.2

/-- Claim C1: starting from `state = false` with no pending transition, if
the voltage-on condition first holds at the call `m0` (time `t0`) and
ceases to hold at the call `lastI` (time `t1`) with `t1 - t0 < onDelay`,
then along the whole trace the state never becomes `true` (every prefix of
the evaluation sequence leaves `state = false`), the pending-on transition
ends cancelled (`pending_state = none`, `deadline = none`), and a later
re-detection arms a fresh deadline a full `onDelay` after its own call
time. -/
theorem c1_debounce_cancellation (s0 : SwitchLogic) (pre : List EvalInput)
    (m0 : EvalInput) (rest : List EvalInput) (lastI : EvalInput)
    (hstate : s0.state = false) (hpend : s0.pending_state = none)
    (hplain : ∀ inp ∈ pre ++ m0 :: rest ++ [lastI], plainInput inp)
    (hpre : ∀ inp ∈ pre, onCond s0 inp = false)
    (hm0 : onCond s0 m0 = true)
    (hrest : ∀ inp ∈ rest, onCond s0 inp = true)
    (hlast : onCond s0 lastI = false)
    (hmono : (pre ++ m0 :: rest ++ [lastI]).Pairwise fun a b => a.now ≤ b.now)
    (hshort : lastI.now - m0.now < s0.on_delay) :
    (∀ n, (List.foldl step s0 ((pre ++ m0 :: rest ++ [lastI]).take n)).state = false)
    ∧ List.foldl step s0 (pre ++ m0 :: rest ++ [lastI]) =
        { s0 with pending_state := none, deadline := none }
    ∧ ∀ inp2 : EvalInput, plainInput inp2 → onCond s0 inp2 = true →
        step (List.foldl step s0 (pre ++ m0 :: rest ++ [lastI])) inp2 =
          { s0 with pending_state := some true,
                    deadline := some (inp2.now + s0.on_delay) } := by
  have hlt : lastI.now < m0.now + s0.on_delay := by linarith
  have hrest' : ∀ inp ∈ rest, inp.now ≤ lastI.now := by
    intro inp hinp
    exact (List.pairwise_append.mp hmono).2.2 inp (by simp [hinp]) lastI (by simp)
  have hmain := trace_main pre s0 m0 rest lastI hstate hpend
    (fun inp hinp => ⟨hplain inp (by simp [hinp]), hpre inp hinp⟩)
    (hplain m0 (by simp)) hm0
    (fun inp hinp =>
      ⟨hplain inp (by simp [hinp]), hrest inp hinp,
        lt_of_le_of_lt (hrest' inp hinp) hlt⟩)
    (hplain lastI (by simp)) hlast
  refine ⟨hmain.1, hmain.2, ?_⟩
  intro inp2 hp2 hc2
  rw [hmain.2]
  exact step_arm _ inp2 hp2 (by simpa using hstate) (by simp) hc2

/-- Concrete switch used by the C1 witness: on 3 V, off 2 V, zero
hysteresis, `onDelay = 2`, `offDelay = 5`, idle. -/
def c1wSwitch : SwitchLogic := ⟨3, 2, 0, 2, 5, false, none, none⟩

/-- C1 witness trace, prefix: one call below threshold at time 0. -/
def c1wPre : List EvalInput := [⟨0, 0, [], [], false, false⟩]

/-- C1 witness trace, first qualifying call at time 1. -/
def c1wM0 : EvalInput := ⟨4, 1, [], [], false, false⟩

/-- C1 witness trace, further qualifying calls. -/
def c1wRest : List EvalInput := [⟨4, 1, [], [], false, false⟩]

/-- C1 witness trace, the call at time 2 where the condition ceases
(2 - 1 < onDelay = 2). -/
def c1wLast : EvalInput := ⟨1, 2, [], [], false, false⟩

/-- Witness for C1 at a concrete five-call trace: the condition first
holds at time 1, ceases at time 2, so the switch never turns on and the
pending transition is cancelled. -/
theorem c1_debounce_cancellation_witness :
    (∀ n, (List.foldl step c1wSwitch
        ((c1wPre ++ c1wM0 :: c1wRest ++ [c1wLast]).take n)).state = false)
    ∧ List.foldl step c1wSwitch (c1wPre ++ c1wM0 :: c1wRest ++ [c1wLast]) =
        { c1wSwitch with pending_state := none, deadline := none }
    ∧ ∀ inp2 : EvalInput, plainInput inp2 → onCond c1wSwitch inp2 = true →
        step (List.foldl step c1wSwitch (c1wPre ++ c1wM0 :: c1wRest ++ [c1wLast])) inp2 =
          { c1wSwitch with
              pending_state := some true
              deadline := some (inp2.now + c1wSwitch.on_delay) } :=
  c1_debounce_cancellation c1wSwitch c1wPre c1wM0 c1wRest c1wLast
    rfl rfl
    (by
      intro inp hinp
      fin_cases hinp <;>
        exact ⟨rfl, rfl, by intro kv hkv; simp [c1wPre, c1wM0, c1wRest, c1wLast] at hkv⟩)
    (by intro inp hinp; fin_cases hinp; decide)
    (by decide) (by intro inp hinp; fin_cases hinp; decide) (by decide)
    (by decide) (by norm_num [c1wLast, c1wM0, c1wSwitch])

/-- The switch of the C3 scenario: activation threshold 3.35 V, zero
hysteresis, `onDelay = 2 s`; deactivation threshold and delay are
arbitrary (the scenario never leaves the `state = false` branch). -/
def c3Switch (offT offD : ℚ) : SwitchLogic := ⟨3.35, offT, 0, 2, offD, false, none, none⟩

/-- The C3 voltage sequence `[0, 3.0, 3.4, 3.4, 3.4]` at one-second
ticks, with no auxiliary conditions and no force flags. -/
def c3Inputs : List EvalInput :=
  [⟨0, 0, [], [], false, false⟩,
   ⟨3, 1, [], [], false, false⟩,
   ⟨3.4, 2, [], [], false, false⟩,
   ⟨3.4, 3, [], [], false, false⟩,
   ⟨3.4, 4, [], [], false, false⟩]

/-- Claim C3: with activation at 3.35 V, zero hysteresis and
`onDelay = 2 s`, evaluating `[0, 3.0, 3.4, 3.4, 3.4]` at times 0..4 s
leaves `state = false` after each of the first four calls and commits
`state = true` exactly at the fifth call (2 s after the first qualifying
sample).  The deactivation threshold may be any value not above the
activation threshold. -/
theorem c3_scenario_third_sample_commits (offT offD : ℚ) (hoff : offT ≤ 3.35) :
    (∀ n ≤ 4, (List.foldl step (c3Switch offT offD) (c3Inputs.take n)).state = false)
    ∧ (List.foldl step (c3Switch offT offD) c3Inputs).state = true := by
  have hth : (c3Switch offT offD).computeThresholds = (3.35, offT) := by
    rw [SwitchLogic.computeThresholds]
    norm_num [c3Switch]
    intro h
    exfalso
    norm_num at hoff
    linarith
  have hplain : ∀ inp ∈ c3Inputs, plainInput inp := by
    intro inp hinp
    fin_cases hinp <;> exact ⟨rfl, rfl, by intro kv hkv; simp [c3Inputs] at hkv⟩
  have hc0 : onCond (c3Switch offT offD) ⟨0, 0, [], [], false, false⟩ = false := by
    simp [onCond, hth]; norm_num
  have hc1 : onCond (c3Switch offT offD) ⟨3, 1, [], [], false, false⟩ = false := by
    simp [onCond, hth]; norm_num
  have hcHigh : ∀ t : ℚ, onCond (c3Switch offT offD) ⟨3.4, t, [], [], false, false⟩ = true := by
    intro t
    simp [onCond, hth]; norm_num
  have e0 : step (c3Switch offT offD) ⟨0, 0, [], [], false, false⟩ = c3Switch offT offD :=
    step_skip _ _ (hplain _ (by simp [c3Inputs])) rfl (by simp [c3Switch]) hc0
  have e1 : step (c3Switch offT offD) ⟨3, 1, [], [], false, false⟩ = c3Switch offT offD :=
    step_skip _ _ (hplain _ (by simp [c3Inputs])) rfl (by simp [c3Switch]) hc1
  have e2 : step (c3Switch offT offD) ⟨3.4, 2, [], [], false, false⟩ =
      { c3Switch offT offD with pending_state := some true, deadline := some (2 + 2) } := by
    have := step_arm (c3Switch offT offD) ⟨3.4, 2, [], [], false, false⟩
      (hplain _ (by simp [c3Inputs])) rfl (by simp [c3Switch]) (hcHigh 2)
    simpa [c3Switch] using this
  have e3 : step { c3Switch offT offD with
      pending_state := some true, deadline := some (2 + 2) } ⟨3.4, 3, [], [], false, false⟩ =
      { c3Switch offT offD with pending_state := some true, deadline := some (2 + 2) } :=
    step_hold _ _ (2 + 2) (hplain _ (by simp [c3Inputs])) rfl rfl rfl (by norm_num) (hcHigh 3)
  have e4 : step { c3Switch offT offD with
      pending_state := some true, deadline := some (2 + 2) } ⟨3.4, 4, [], [], false, false⟩ =
      { c3Switch offT offD with state := true, pending_state := none, deadline := none } := by
    have := step_commit { c3Switch offT offD with
        pending_state := some true, deadline := some (2 + 2) }
      ⟨3.4, 4, [], [], false, false⟩ (2 + 2)
      (hplain _ (by simp [c3Inputs])) rfl rfl rfl (by norm_num) (hcHigh 4)
    simpa using this
  constructor
  · intro n hn
    interval_cases n
    · rfl
    · simp only [c3Inputs, List.take, List.foldl]
      rw [e0]
      rfl
    · simp only [c3Inputs, List.take, List.foldl]
      rw [e0, e1]
      rfl
    · simp only [c3Inputs, List.take, List.foldl]
      rw [e0, e1, e2]
      rfl
    · simp only [c3Inputs, List.take, List.foldl]
      rw [e0, e1, e2, e3]
      rfl
  · simp only [c3Inputs, List.foldl]
    rw [e0, e1, e2, e3, e4]

/-- Witness for C3 with the deactivation side fixed at 3.25 V / 5 s. -/
theorem c3_scenario_third_sample_commits_witness :
    (∀ n ≤ 4, (List.foldl step (c3Switch 3.25 5) (c3Inputs.take n)).state = false)
    ∧ (List.foldl step (c3Switch 3.25 5) c3Inputs).state = true :=
  c3_scenario_third_sample_commits 3.25 5 (by norm_num)

/-- Claim C2: a single `evaluate` call with `force_off = true` commits
`state = false` and clears `pending_state` and `deadline`, for every
switch state, measurement and condition map; and with `force_off = true`
the whole result is independent of `force_on` (forcing on is
suppressed). -/
theorem c2_force_off_wins (s : SwitchLogic) (voltage now : ℚ)
    (onDeps offDeps : List (String × Bool)) (forceOn : Bool) :
    ((s.evaluate voltage now onDeps offDeps forceOn true).1.state = false
      ∧ (s.evaluate voltage now onDeps offDeps forceOn true).1.pending_state = none
      ∧ (s.evaluate voltage now onDeps offDeps forceOn true).1.deadline = none)
    ∧ s.evaluate voltage now onDeps offDeps forceOn true
        = s.evaluate voltage now onDeps offDeps false true :=
  ⟨⟨rfl, rfl, rfl⟩, by cases forceOn <;> rfl⟩

/-- Thresholds as claim C4's sentence states them:
`upper = onThreshold + hysteresis/2`, `lower = offThreshold -
hysteresis/2`, collapsed to the common midpoint when inverted (spec-side
definition, for comparison against the code's `computeThresholds`). -/
def specThresholds (onT offT h : ℚ) : ℚ × ℚ :=
  let upper := onT + h / 2
  let lower := offT - h / 2
  if upper < lower then ((upper + lower) / 2, (upper + lower) / 2) else (upper, lower)

/-- Claim C4 as stated is false: with `onThreshold = 2`,
`offThreshold = 0` and `hysteresis = -2` the code skips the
half-hysteresis adjustment (it is applied only when `hysteresis > 0`) and
returns `(2, 0)`, while the claimed formula yields `(1, 1)`. -/
theorem c4_thresholds_counterexample :
    (SwitchLogic.mk 2 0 (-2) 0 0 false none none).thresholds = (2, 0)
    ∧ specThresholds 2 0 (-2) = (1, 1)
    ∧ ((2 : ℚ), (0 : ℚ)) ≠ ((1 : ℚ), (1 : ℚ)) := by
  refine ⟨?_, ?_, by norm_num⟩
  · norm_num [SwitchLogic.thresholds, SwitchLogic.computeThresholds]
  · norm_num [specThresholds]

/-- Claim C4, amended: for `hysteresis ≥ 0` the code's `thresholds()`
equals the claimed formula `(onThreshold + hysteresis/2, offThreshold -
hysteresis/2)` with midpoint collapse; for `hysteresis < 0` the
half-adjustment is skipped (raw thresholds, then clamp).  For every
configuration the returned pair satisfies `upper ≥ lower`, and whenever
the pre-clamp values invert, both returned values equal their common
midpoint. -/
theorem c4_thresholds_amended (s : SwitchLogic) :
    (0 ≤ s.hysteresis →
      s.thresholds = specThresholds s.on_threshold s.off_threshold s.hysteresis)
    ∧ s.thresholds.2 ≤ s.thresholds.1
    ∧ ((if s.hysteresis > 0 then s.on_threshold + s.hysteresis / 2 else s.on_threshold) <
        (if s.hysteresis > 0 then s.off_threshold - s.hysteresis / 2 else s.off_threshold) →
        s.thresholds.1 =
          ((if s.hysteresis > 0 then s.on_threshold + s.hysteresis / 2 else s.on_threshold) +
            (if s.hysteresis > 0 then s.off_threshold - s.hysteresis / 2
              else s.off_threshold)) / 2
        ∧ s.thresholds.2 =
          ((if s.hysteresis > 0 then s.on_threshold + s.hysteresis / 2 else s.on_threshold) +
            (if s.hysteresis > 0 then s.off_threshold - s.hysteresis / 2
              else s.off_threshold)) / 2) := by
  refine ⟨?_, ?_, ?_⟩
  · intro hh
    rcases lt_or_eq_of_le hh with hpos | hzero
    · simp only [SwitchLogic.thresholds, SwitchLogic.computeThresholds, specThresholds,
        if_pos hpos]
    · simp only [SwitchLogic.thresholds, SwitchLogic.computeThresholds, specThresholds,
        ← hzero]
      norm_num
  · simp only [SwitchLogic.thresholds, SwitchLogic.computeThresholds]
    split_ifs <;> dsimp only <;> linarith
  · intro hlt
    simp only [SwitchLogic.thresholds, SwitchLogic.computeThresholds, if_pos hlt]
    exact ⟨trivial, trivial⟩

/-- Witness for C4 (amended) at `onThreshold = 4`, `offThreshold = 1`,
`hysteresis = 2`. -/
theorem c4_thresholds_amended_witness :
    (SwitchLogic.mk 4 1 2 0 0 false none none).thresholds = specThresholds 4 1 2 :=
  (c4_thresholds_amended _).1 (by norm_num)

/-- The SwitchLogic state invariant of claim C5: a pending transition is
recorded exactly when a deadline is. -/
def SwitchInv (s : SwitchLogic) : Prop :=
  s.pending_state = none ↔ s.deadline = none

lemma transition_inv (s : SwitchLogic) (now : ℚ) (onr offr fOn fOff : Bool)
    (hs : SwitchInv s) :
    SwitchInv (s.transition now onr offr fOn fOff).1
    ∧ ((s.transition now onr offr fOn fOff).1.state ≠ s.state →
        (s.transition now onr offr fOn fOff).1.pending_state = none
        ∧ (s.transition now onr offr fOn fOff).1.deadline = none) := by
  unfold SwitchInv at hs ⊢
  cases fOff <;> cases fOn <;> cases hst : s.state <;> cases onr <;> cases offr <;>
    rcases hps : s.pending_state with _ | b <;> (try cases b) <;>
    rcases hdl : s.deadline with _ | d <;>
    simp_all [SwitchLogic.transition] <;>
    split_ifs <;> simp_all

/-- Claim C5: `pending_state = none ↔ deadline = none` holds in the
initial state, after every `configure`, and is preserved by every
`evaluate`; moreover an `evaluate` call that flips `state` leaves both
`pending_state` and `deadline` cleared. -/
theorem c5_pending_deadline_invariant :
    (∀ onT offT h onD offD : ℚ, SwitchInv ⟨onT, offT, h, onD, offD, false, none, none⟩)
    ∧ (∀ (s : SwitchLogic) (onT offT h onD offD : ℚ),
        SwitchInv (s.configure onT offT h onD offD))
    ∧ ∀ (s : SwitchLogic) (voltage now : ℚ) (onDeps offDeps : List (String × Bool))
        (fOn fOff : Bool), SwitchInv s →
        SwitchInv (s.evaluate voltage now onDeps offDeps fOn fOff).1
        ∧ ((s.evaluate voltage now onDeps offDeps fOn fOff).1.state ≠ s.state →
            (s.evaluate voltage now onDeps offDeps fOn fOff).1.pending_state = none
            ∧ (s.evaluate voltage now onDeps offDeps fOn fOff).1.deadline = none) := by
  refine ⟨fun _ _ _ _ _ => by simp [SwitchInv],
    fun s _ _ _ _ _ => by simp [SwitchInv, SwitchLogic.configure], ?_⟩
  intro s voltage now onDeps offDeps fOn fOff hs
  exact transition_inv s now _ _ fOn fOff hs

/-- Witness for C5: the invariant after an `evaluate` call on a switch
that is on with a due pending-off transition. -/
theorem c5_pending_deadline_invariant_witness :
    SwitchInv ((SwitchLogic.mk 3 2 0 2 5 true (some false) (some 10)).evaluate
      0 11 [] [] false false).1 :=
  (c5_pending_deadline_invariant.2.2 (SwitchLogic.mk 3 2 0 2 5 true (some false) (some 10))
    0 11 [] [] false false (by simp [SwitchInv])).1

/-! ### The controller (`DPlusController`, src/dplus_sim.py lines 1408-1767)

The settings dict holds Python numbers, strings and booleans. -/

/-- A value stored in the controller's settings dict. -/
inductive SVal where
  | num (q : ℚ)
  | str (s : String)
  | boolean (b : Bool)
  deriving DecidableEq, Repr

/-- Python `float(value)` on a settings value.  The embedded settings
store numbers under every numeric key, so the string case (which Python
would parse or raise on) is never exercised. -/
def SVal.toFloat : SVal → ℚ
  | .num q => q
  | .boolean b => if b then 1 else 0
  | .str _ => 0

/-- Python `bool(value)` on a settings value. -/
def SVal.toBool : SVal → Bool
  | .boolean b => b
  | .num q => decide (q ≠ 0)
  | .str s => decide (s ≠ "")

/-- `float(settings[k])` / `float(settings.get(k, 0))`.  The controller
constructor merges `DEFAULT_SETTINGS`, so the keys read this way are
always present. -/
def getFloat (st : List (String × SVal)) (k : String) : ℚ :=
  ((dictGet? st k).getD (SVal.num 0)).toFloat

/-- `bool(settings.get(k, False))`. -/
def getBool (st : List (String × SVal)) (k : String) : Bool :=
  match dictGet? st k with
  | some v => v.toBool
  | none => false

/-- The recognized configuration keys (the keys of
`SETTINGS_DEFINITIONS`, src/dplus_sim.py lines 105-250). -/
def RECOGNIZED_KEYS : List String :=
  ["gpio_pin", "target_voltage", "hysteresis", "activation_delay_seconds",
   "deactivation_delay_seconds", "on_voltage", "off_voltage", "on_delay_seconds",
   "off_delay_seconds", "use_ignition", "ignition_gpio", "ignition_pull",
   "force_on", "force_off", "status_publish_interval", "dbus_bus",
   "service_path", "voltage_path"]

/-- `DPlusController._resolve_on_voltage` (lines 1470-1474). -/
def resolveOnVoltage (st : List (String × SVal)) : ℚ :=
  match dictGet? st "on_voltage" with
  | some v => v.toFloat
  | none => getFloat st "target_voltage" + getFloat st "hysteresis" / 2

/-- `DPlusController._resolve_off_voltage` (lines 1476-1480). -/
def resolveOffVoltage (st : List (String × SVal)) : ℚ :=
  match dictGet? st "off_voltage" with
  | some v => v.toFloat
  | none => getFloat st "target_voltage" - getFloat st "hysteresis" / 2

/-- `DPlusController._resolve_on_delay` (lines 1482-1486). -/
def resolveOnDelay (st : List (String × SVal)) : ℚ :=
  match dictGet? st "on_delay_seconds" with
  | some v => v.toFloat
  | none => getFloat st "activation_delay_seconds"

/-- `DPlusController._resolve_off_delay` (lines 1488-1492). -/
def resolveOffDelay (st : List (String × SVal)) : ℚ :=
  match dictGet? st "off_delay_seconds" with
  | some v => v.toFloat
  | none => getFloat st "deactivation_delay_seconds"

/-- The controller state touched by the claims: the settings dict, the
owned `SwitchLogic`, `_voltage`, `_voltage_source_available`, whether
`_voltage_provider` is set, the ignition input read-back, the GPIO output
line state (`GPIOController._state`) and `_running`. -/
structure Controller where
  settings : List (String × SVal)
  switch : SwitchLogic
  voltage : ℚ
  sourceAvailable : Bool
  providerPresent : Bool
  ignitionState : Bool
  gpioState : Bool
  running : Bool
  deriving DecidableEq, Repr

/-- `DPlusController._evaluate_locked` (lines 1726-1767): builds the
condition maps (the ConditionGate), runs `SwitchLogic.evaluate` with the
configured force flags, and writes the result to the GPIO line.  Returns
the updated controller and the evaluation result. -/
def Controller.evaluateLocked (c : Controller) (now : ℚ) : Controller × EvalResult :=
  let ignition_required := getBool c.settings "use_ignition"
  let source_available := c.sourceAvailable || !c.providerPresent
  let on_dependencies :=
    (if ignition_required then [("ignition", c.ignitionState)] else [])
      ++ [("voltage_source", source_available)]
  let off_dependencies :=
    (if ignition_required then [("ignition", !c.ignitionState)] else [])
      ++ (if source_available then [] else [("voltage_source", true)])
  let force_on := getBool c.settings "force_on"
  let force_off := getBool c.settings "force_off"
  let r := c.switch.evaluate c.voltage now on_dependencies off_dependencies force_on force_off
  ({ c with switch := r.1, gpioState := r.2.state }, r.2)

/-- Outcome of one `provider()` poll in `_run_loop`: a value, `None`
(no data), or a raised `VoltageSourceError`. -/
inductive PollOutcome where
  | ok (v : ℚ)
  | noData
  | error
  deriving DecidableEq, Repr

/-- The merge step of one `_run_loop` tick (lines 1673-1717): on a poll
error or a poll returning no data the measurement is forced to `0.0` and
the source is marked unavailable; on success the value is stored and the
source marked available; without a provider the source counts as
available (manual mode) and the voltage is kept. -/
def Controller.tickMerge (c : Controller) (outcome : PollOutcome) : Controller :=
  if !c.providerPresent then { c with sourceAvailable := true }
  else
    match outcome with
    | .error => { c with sourceAvailable := false, voltage := 0 }
    | .noData => { c with sourceAvailable := false, voltage := 0 }
    | .ok v => { c with sourceAvailable := true, voltage := v }

/-- `DPlusController.update_settings` (lines 1572-1609): merge the new
entries into the settings dict, unconditionally reconfigure the switch
from the resolved thresholds and delays, and re-evaluate.  (The GPIO and
ignition pin re-binding on `gpio_pin` / `ignition_gpio` /
`ignition_pull` keys changes pin numbers only and is outside this
model.) -/
def Controller.updateSettings (c : Controller) (new : List (String × SVal)) (now : ℚ) :
    Controller :=
  let settings := dictUpdate c.settings new
  let sw := c.switch.configure (resolveOnVoltage settings) (resolveOffVoltage settings)
    (getFloat settings "hysteresis") (resolveOnDelay settings) (resolveOffDelay settings)
  (({ c with settings := settings, switch := sw }).evaluateLocked now).1

/-- `DPlusController.inject_voltage` (lines 1611-1616): store the value
and re-evaluate immediately. -/
def Controller.injectVoltage (c : Controller) (v now : ℚ) : Controller :=
  (({ c with voltage := v }).evaluateLocked now).1

/-- `DPlusController.stop` (lines 1554-1570): if not running, return at
once (no state change, no status notification); otherwise clear the
running flag, cancel the loop task, force the GPIO line low and notify.
The second component records whether a status notification was sent. -/
def Controller.stop (c : Controller) : Controller × Bool :=
  if !c.running then (c, false)
  else ({ c with running := false, gpioState := false }, true)

/-- `DPlusSimService.InjectVoltageSample` (lines 1825-1828): the service
method calls `inject_voltage` unconditionally — the source has no
debug-enablement flag, no environment check and no refusal path. -/
def InjectVoltageSample (c : Controller) (voltage now : ℚ) : Controller :=
  c.injectVoltage voltage now

lemma evaluateLocked_sourceDown (c : Controller) (now : ℚ)
    (hsa : c.sourceAvailable = false) (hprov : c.providerPresent = true)
    (hfOn : getBool c.settings "force_on" = false)
    (hfOff : getBool c.settings "force_off" = false) :
    (c.evaluateLocked now).2.off_required = true
    ∧ ("voltage_source", false) ∈ (c.evaluateLocked now).2.conditions_on
    ∧ ("voltage_source", true) ∈ (c.evaluateLocked now).2.conditions_off
    ∧ (c.switch.state = true → c.switch.pending_state ≠ some false →
        (c.evaluateLocked now).1.switch.pending_state = some false
        ∧ (c.evaluateLocked now).1.switch.deadline = some (now + c.switch.off_delay))
    ∧ ∀ d : ℚ, c.switch.state = true → c.switch.pending_state = some false →
        c.switch.deadline = some d → now ≥ d →
        (c.evaluateLocked now).1.switch.state = false := by
  have hvs : ("voltage_source" : String) ≠ "voltage" := by decide
  have hign : ("ignition" : String) ≠ "voltage" := by decide
  cases hig : getBool c.settings "use_ignition"
  · simp only [Controller.evaluateLocked, SwitchLogic.evaluate, hig, hsa, hprov, hfOn, hfOff,
      Bool.false_or, Bool.not_true, if_true, if_false, Bool.false_eq_true, ite_false, ite_true,
      List.nil_append, List.cons_append, List.append_nil]
    rw [dictUpdate_singleton_of_no_key _ _ _ (by simp_all [hvs, hign]),
      dictUpdate_singleton_of_no_key _ _ _ (by simp_all [hvs, hign])]
    refine ⟨by simp, by simp, by simp, ?_, ?_⟩
    · intro hstate hpend
      rw [transition_arm_off_eq _ _ _ _ (by simp) hstate hpend]
      exact ⟨rfl, rfl⟩
    · intro d hstate hpend hdl hdue
      rw [transition_commit_off_eq _ _ d _ _ (by simp) hstate hpend hdl hdue]
  · simp only [Controller.evaluateLocked, SwitchLogic.evaluate, hig, hsa, hprov, hfOn, hfOff,
      Bool.false_or, Bool.not_true, if_true, if_false, Bool.false_eq_true, ite_false, ite_true,
      List.nil_append, List.cons_append, List.append_nil]
    rw [dictUpdate_singleton_of_no_key _ _ _ (by simp_all [hvs, hign]),
      dictUpdate_singleton_of_no_key _ _ _ (by simp_all [hvs, hign])]
    refine ⟨by simp, by simp, by simp, ?_, ?_⟩
    · intro hstate hpend
      rw [transition_arm_off_eq _ _ _ _ (by simp) hstate hpend]
      exact ⟨rfl, rfl⟩
    · intro d hstate hpend hdl hdue
      rw [transition_commit_off_eq _ _ d _ _ (by simp) hstate hpend hdl hdue]

/-- Claim C6: when a tick's poll errors or returns no data (a provider
being configured), the merged measurement is `0.0` and the source is
marked unavailable; the evaluation then carries a false
"voltage_source" entry in the on-conditions and a true one in the
off-conditions, so `off_required` is true; and (absent force overrides)
a switch that is on arms a pending-off with deadline `now + offDelay`,
or commits to off once such a deadline is due — it does not hold its
last state. -/
theorem c6_poll_failure_fail_safe (c : Controller) (outcome : PollOutcome) (now : ℚ)
    (hprov : c.providerPresent = true)
    (hfail : outcome = PollOutcome.noData ∨ outcome = PollOutcome.error)
    (hfOn : getBool c.settings "force_on" = false)
    (hfOff : getBool c.settings "force_off" = false) :
    (c.tickMerge outcome).voltage = 0
    ∧ (c.tickMerge outcome).sourceAvailable = false
    ∧ ("voltage_source", false) ∈ ((c.tickMerge outcome).evaluateLocked now).2.conditions_on
    ∧ ("voltage_source", true) ∈ ((c.tickMerge outcome).evaluateLocked now).2.conditions_off
    ∧ ((c.tickMerge outcome).evaluateLocked now).2.off_required = true
    ∧ (c.switch.state = true → c.switch.pending_state ≠ some false →
        ((c.tickMerge outcome).evaluateLocked now).1.switch.pending_state = some false
        ∧ ((c.tickMerge outcome).evaluateLocked now).1.switch.deadline
            = some (now + c.switch.off_delay))
    ∧ ∀ d : ℚ, c.switch.state = true → c.switch.pending_state = some false →
        c.switch.deadline = some d → now ≥ d →
        ((c.tickMerge outcome).evaluateLocked now).1.switch.state = false := by
  have hmerge : c.tickMerge outcome = { c with sourceAvailable := false, voltage := 0 } := by
    rcases hfail with rfl | rfl <;> simp [Controller.tickMerge, hprov]
  rw [hmerge]
  have h := evaluateLocked_sourceDown { c with sourceAvailable := false, voltage := 0 } now
    rfl hprov hfOn hfOff
  exact ⟨rfl, rfl, h.2.1, h.2.2.1, h.1, h.2.2.2.1, h.2.2.2.2⟩

/-- Concrete controller for the C6 witness: provider configured, switch
currently on with no pending transition, no force flags. -/
def c6wController : Controller :=
  ⟨[], ⟨3, 2, 0, 2, 5, true, none, none⟩, 5, true, true, false, true, true⟩

/-- Witness for C6: a no-data poll on `c6wController` at time 7 zeroes
the measurement, marks the source unavailable, and arms a pending-off
with deadline 7 + 5. -/
theorem c6_poll_failure_fail_safe_witness :
    (c6wController.tickMerge PollOutcome.noData).voltage = 0
    ∧ (c6wController.tickMerge PollOutcome.noData).sourceAvailable = false
    ∧ ("voltage_source", false) ∈
        ((c6wController.tickMerge PollOutcome.noData).evaluateLocked 7).2.conditions_on
    ∧ ("voltage_source", true) ∈
        ((c6wController.tickMerge PollOutcome.noData).evaluateLocked 7).2.conditions_off
    ∧ ((c6wController.tickMerge PollOutcome.noData).evaluateLocked 7).2.off_required = true
    ∧ (c6wController.switch.state = true → c6wController.switch.pending_state ≠ some false →
        ((c6wController.tickMerge PollOutcome.noData).evaluateLocked 7).1.switch.pending_state
            = some false
        ∧ ((c6wController.tickMerge PollOutcome.noData).evaluateLocked 7).1.switch.deadline
            = some (7 + c6wController.switch.off_delay))
    ∧ ∀ d : ℚ, c6wController.switch.state = true →
        c6wController.switch.pending_state = some false →
        c6wController.switch.deadline = some d → (7 : ℚ) ≥ d →
        ((c6wController.tickMerge PollOutcome.noData).evaluateLocked 7).1.switch.state = false :=
  c6_poll_failure_fail_safe c6wController PollOutcome.noData 7 rfl (Or.inl rfl) rfl rfl

lemma dictGet?_update_single_ne {α : Type} (d : List (String × α)) (k k' : String) (v : α)
    (h : k' ≠ k) : dictGet? (dictUpdate d [(k, v)]) k' = dictGet? d k' := by
  unfold dictUpdate dictGet?
  rw [List.find?_append, List.find?_map]
  have hfilter : List.find? (fun kv => decide (kv.1 = k'))
      (List.filter (fun kv2 => !(d.any fun kv => decide (kv.1 = kv2.1))) [(k, v)]) = none := by
    apply List.find?_eq_none.mpr
    intro x hx
    have hx' : x = (k, v) := by
      rcases List.mem_filter.mp hx with ⟨hmem, _⟩
      simpa using hmem
    subst hx'
    simp [Ne.symm h]
  rw [hfilter]
  have hcomp : ((fun kv : String × α => decide (kv.1 = k')) ∘ fun kv =>
      match List.find? (fun kv2 => decide (kv2.1 = kv.1)) [(k, v)] with
      | some kv2 => (kv.1, kv2.2)
      | none => kv) = fun kv : String × α => decide (kv.1 = k') := by
    funext kv
    simp only [Function.comp]
    rcases hfind : List.find? (fun kv2 => decide (kv2.1 = kv.1)) [(k, v)] with _ | kv2 <;>
      simp [hfind]
  rw [hcomp]
  rcases hfind : List.find? (fun kv : String × α => decide (kv.1 = k')) d with _ | kv0
  · rfl
  · have hkey : kv0.1 = k' := by simpa using List.find?_some hfind
    have hkk : k ≠ kv0.1 := by
      intro he
      rw [hkey] at he
      exact h he.symm
    simp [hkk]

lemma transition_config (s : SwitchLogic) (now : ℚ) (onr offr fOn fOff : Bool) :
    (s.transition now onr offr fOn fOff).1.on_threshold = s.on_threshold
    ∧ (s.transition now onr offr fOn fOff).1.off_threshold = s.off_threshold
    ∧ (s.transition now onr offr fOn fOff).1.hysteresis = s.hysteresis
    ∧ (s.transition now onr offr fOn fOff).1.on_delay = s.on_delay
    ∧ (s.transition now onr offr fOn fOff).1.off_delay = s.off_delay := by
  cases fOff <;> cases fOn <;> cases hst : s.state <;> cases onr <;> cases offr <;>
    rcases hps : s.pending_state with _ | b <;> (try cases b) <;>
    rcases hdl : s.deadline with _ | d <;>
    simp_all [SwitchLogic.transition] <;> split_ifs <;> simp_all

lemma transition_deadline_from_none (s : SwitchLogic) (now : ℚ) (onr offr fOn fOff : Bool)
    (h : s.pending_state = none) (hdl : s.deadline = none) :
    (s.transition now onr offr fOn fOff).1.deadline = none
    ∨ (s.transition now onr offr fOn fOff).1.deadline = some (now + s.on_delay)
    ∨ (s.transition now onr offr fOn fOff).1.deadline = some (now + s.off_delay) := by
  cases fOff <;> cases fOn <;> cases hst : s.state <;> cases onr <;> cases offr <;>
    simp_all [SwitchLogic.transition]

lemma evaluateLocked_switch_transition (c : Controller) (now : ℚ) :
    ∃ onr offr fOn fOff : Bool,
      (c.evaluateLocked now).1.switch = (c.switch.transition now onr offr fOn fOff).1 :=
  ⟨_, _, _, _, rfl⟩

/-- Claim C7, amended: `update_settings` with a map holding only an
unrecognized key leaves every recognized configuration field unchanged
and leaves the switch's thresholds and delays at their previous resolved
values — but it always discards the in-flight pending transition, because
the switch is unconditionally reconfigured (`configure` clears
`pending_state`/`deadline`) and the immediate re-evaluation can only
re-arm a deadline measured from the update's own time (no credit from the
old deadline survives). -/
theorem c7_update_settings_amended (c : Controller) (k : String) (v : SVal) (now : ℚ)
    (hk : k ∉ RECOGNIZED_KEYS) :
    (∀ key ∈ RECOGNIZED_KEYS,
      dictGet? (c.updateSettings [(k, v)] now).settings key = dictGet? c.settings key)
    ∧ (c.updateSettings [(k, v)] now).switch.on_threshold = resolveOnVoltage c.settings
    ∧ (c.updateSettings [(k, v)] now).switch.off_threshold = resolveOffVoltage c.settings
    ∧ (c.updateSettings [(k, v)] now).switch.hysteresis = getFloat c.settings "hysteresis"
    ∧ (c.updateSettings [(k, v)] now).switch.on_delay = resolveOnDelay c.settings
    ∧ (c.updateSettings [(k, v)] now).switch.off_delay = resolveOffDelay c.settings
    ∧ ((c.updateSettings [(k, v)] now).switch.deadline = none
      ∨ (c.updateSettings [(k, v)] now).switch.deadline
          = some (now + resolveOnDelay c.settings)
      ∨ (c.updateSettings [(k, v)] now).switch.deadline
          = some (now + resolveOffDelay c.settings)) := by
  have hne : ∀ key ∈ RECOGNIZED_KEYS, key ≠ k := fun key hkey he => hk (he ▸ hkey)
  have hget : ∀ key ∈ RECOGNIZED_KEYS,
      dictGet? (dictUpdate c.settings [(k, v)]) key = dictGet? c.settings key :=
    fun key hkey => dictGet?_update_single_ne c.settings k key v (hne key hkey)
  have hOnV : resolveOnVoltage (dictUpdate c.settings [(k, v)]) = resolveOnVoltage c.settings := by
    unfold resolveOnVoltage getFloat
    rw [hget "on_voltage" (by decide), hget "target_voltage" (by decide),
      hget "hysteresis" (by decide)]
  have hOffV : resolveOffVoltage (dictUpdate c.settings [(k, v)])
      = resolveOffVoltage c.settings := by
    unfold resolveOffVoltage getFloat
    rw [hget "off_voltage" (by decide), hget "target_voltage" (by decide),
      hget "hysteresis" (by decide)]
  have hHys : getFloat (dictUpdate c.settings [(k, v)]) "hysteresis"
      = getFloat c.settings "hysteresis" := by
    unfold getFloat
    rw [hget "hysteresis" (by decide)]
  have hOnD : resolveOnDelay (dictUpdate c.settings [(k, v)]) = resolveOnDelay c.settings := by
    unfold resolveOnDelay getFloat
    rw [hget "on_delay_seconds" (by decide), hget "activation_delay_seconds" (by decide)]
  have hOffD : resolveOffDelay (dictUpdate c.settings [(k, v)]) = resolveOffDelay c.settings := by
    unfold resolveOffDelay getFloat
    rw [hget "off_delay_seconds" (by decide), hget "deactivation_delay_seconds" (by decide)]
  obtain ⟨onr, offr, fOn, fOff, hsw⟩ :=
    evaluateLocked_switch_transition
      { c with
        settings := dictUpdate c.settings [(k, v)]
        switch := c.switch.configure (resolveOnVoltage (dictUpdate c.settings [(k, v)]))
          (resolveOffVoltage (dictUpdate c.settings [(k, v)]))
          (getFloat (dictUpdate c.settings [(k, v)]) "hysteresis")
          (resolveOnDelay (dictUpdate c.settings [(k, v)]))
          (resolveOffDelay (dictUpdate c.settings [(k, v)])) } now
  have hsw' : (c.updateSettings [(k, v)] now).switch =
      ((c.switch.configure (resolveOnVoltage (dictUpdate c.settings [(k, v)]))
        (resolveOffVoltage (dictUpdate c.settings [(k, v)]))
        (getFloat (dictUpdate c.settings [(k, v)]) "hysteresis")
        (resolveOnDelay (dictUpdate c.settings [(k, v)]))
        (resolveOffDelay (dictUpdate c.settings [(k, v)]))).transition now onr offr fOn fOff).1 :=
    hsw
  have hcfg := transition_config
    (c.switch.configure (resolveOnVoltage (dictUpdate c.settings [(k, v)]))
      (resolveOffVoltage (dictUpdate c.settings [(k, v)]))
      (getFloat (dictUpdate c.settings [(k, v)]) "hysteresis")
      (resolveOnDelay (dictUpdate c.settings [(k, v)]))
      (resolveOffDelay (dictUpdate c.settings [(k, v)]))) now onr offr fOn fOff
  have hdl := transition_deadline_from_none
    (c.switch.configure (resolveOnVoltage (dictUpdate c.settings [(k, v)]))
      (resolveOffVoltage (dictUpdate c.settings [(k, v)]))
      (getFloat (dictUpdate c.settings [(k, v)]) "hysteresis")
      (resolveOnDelay (dictUpdate c.settings [(k, v)]))
      (resolveOffDelay (dictUpdate c.settings [(k, v)]))) now onr offr fOn fOff rfl rfl
  refine ⟨fun key hkey => hget key hkey, ?_, ?_, ?_, ?_, ?_, ?_⟩
  · rw [hsw', hcfg.1]
    exact hOnV
  · rw [hsw', hcfg.2.1]
    exact hOffV
  · rw [hsw', hcfg.2.2.1]
    exact hHys
  · rw [hsw', hcfg.2.2.2.1]
    exact hOnD
  · rw [hsw', hcfg.2.2.2.2]
    exact hOffD
  · rw [hsw']
    rcases hdl with h | h | h
    · exact Or.inl h
    · exact Or.inr (Or.inl (by rw [h]; exact congrArg _ (congrArg _ hOnD)))
    · exact Or.inr (Or.inr (by rw [h]; exact congrArg _ (congrArg _ hOffD)))

/-- A concrete stopped controller with an integer-valued configuration
(activation 3 V, deactivation 2 V, zero hysteresis, delays 2 s / 5 s),
manual source, switch idle and line low. -/
def testController : Controller :=
  ⟨[("use_ignition", SVal.boolean false), ("force_on", SVal.boolean false),
    ("force_off", SVal.boolean false), ("on_voltage", SVal.num 3),
    ("off_voltage", SVal.num 2), ("hysteresis", SVal.num 0),
    ("on_delay_seconds", SVal.num 2), ("off_delay_seconds", SVal.num 5),
    ("target_voltage", SVal.num 3), ("activation_delay_seconds", SVal.num 2),
    ("deactivation_delay_seconds", SVal.num 5)],
   ⟨3, 2, 0, 2, 5, false, none, none⟩, 0, true, false, false, false, false⟩

/-- `testController` with a pending-on transition in flight
(deadline 10). -/
def c7Controller : Controller :=
  { testController with switch := ⟨3, 2, 0, 2, 5, false, some true, some 10⟩ }

/-- Claim C7 as stated is false: updating with only the unrecognized key
"bogus" changes no threshold or delay, yet the in-flight pending-on
transition (deadline 10) is discarded — after the call `pending_state`
is `none` although nothing relevant to the transition changed. -/
theorem c7_update_settings_counterexample :
    c7Controller.switch.pending_state = some true
    ∧ c7Controller.switch.deadline = some 10
    ∧ "bogus" ∉ RECOGNIZED_KEYS
    ∧ (c7Controller.updateSettings [("bogus", SVal.num 1)] 5).switch.pending_state = none
    ∧ (c7Controller.updateSettings [("bogus", SVal.num 1)] 5).switch.deadline = none
    ∧ (c7Controller.updateSettings [("bogus", SVal.num 1)] 5).switch.on_threshold
        = c7Controller.switch.on_threshold
    ∧ (c7Controller.updateSettings [("bogus", SVal.num 1)] 5).switch.off_threshold
        = c7Controller.switch.off_threshold
    ∧ (c7Controller.updateSettings [("bogus", SVal.num 1)] 5).switch.hysteresis
        = c7Controller.switch.hysteresis
    ∧ (c7Controller.updateSettings [("bogus", SVal.num 1)] 5).switch.on_delay
        = c7Controller.switch.on_delay
    ∧ (c7Controller.updateSettings [("bogus", SVal.num 1)] 5).switch.off_delay
        = c7Controller.switch.off_delay := by
  decide

/-- Witness for C7 (amended) on `c7Controller` with the unrecognized key
"bogus". -/
theorem c7_update_settings_amended_witness :
    (∀ key ∈ RECOGNIZED_KEYS,
      dictGet? (c7Controller.updateSettings [("bogus", SVal.num 1)] 5).settings key
        = dictGet? c7Controller.settings key)
    ∧ (c7Controller.updateSettings [("bogus", SVal.num 1)] 5).switch.on_threshold
        = resolveOnVoltage c7Controller.settings
    ∧ (c7Controller.updateSettings [("bogus", SVal.num 1)] 5).switch.off_threshold
        = resolveOffVoltage c7Controller.settings
    ∧ (c7Controller.updateSettings [("bogus", SVal.num 1)] 5).switch.hysteresis
        = getFloat c7Controller.settings "hysteresis"
    ∧ (c7Controller.updateSettings [("bogus", SVal.num 1)] 5).switch.on_delay
        = resolveOnDelay c7Controller.settings
    ∧ (c7Controller.updateSettings [("bogus", SVal.num 1)] 5).switch.off_delay
        = resolveOffDelay c7Controller.settings
    ∧ ((c7Controller.updateSettings [("bogus", SVal.num 1)] 5).switch.deadline = none
      ∨ (c7Controller.updateSettings [("bogus", SVal.num 1)] 5).switch.deadline
          = some (5 + resolveOnDelay c7Controller.settings)
      ∨ (c7Controller.updateSettings [("bogus", SVal.num 1)] 5).switch.deadline
          = some (5 + resolveOffDelay c7Controller.settings)) :=
  c7_update_settings_amended c7Controller "bogus" (SVal.num 1) 5 (by decide)

/-- Claim C8: the remote `InjectVoltageSample` operation is supposed to
be gated behind a debug/development enablement flag and to refuse (leaving
the voltage unchanged) when the flag is absent — the repository's own
tests (`tests/test_debug_controls.py`) demand exactly that, importing a
`DEV_FEATURE_FLAG_ENV_VAR` and a `debug_enabled` service parameter that
do not exist in `src/dplus_sim.py`.  The shipped service has no gate at
all: this theorem evaluates the code as written and shows the injected
value is applied to the controller's measurement unconditionally, for
every controller state — there is no flag anywhere on the path that could
make it refuse. -/
theorem c8_inject_voltage_ungated (c : Controller) (voltage now : ℚ) :
    (InjectVoltageSample c voltage now).voltage = voltage := rfl

/-- Claim C9 as stated is false: a stopped controller whose line was
driven high (here by a `force_on` settings update, which evaluates and
writes the GPIO even while stopped) keeps its line high across a `stop()`
call — the early return skips the `gpio.write(False)`.  So "after
`stop()` completes the output line reads false" does not hold for the
no-op path. -/
theorem c9_stop_counterexample :
    (testController.updateSettings [("force_on", SVal.boolean true)] 0).running = false
    ∧ (testController.updateSettings [("force_on", SVal.boolean true)] 0).gpioState = true
    ∧ ((testController.updateSettings [("force_on", SVal.boolean true)] 0).stop).1.gpioState
        = true
    ∧ ((testController.updateSettings [("force_on", SVal.boolean true)] 0).stop).2 = false := by
  decide

/-- Claim C9, amended: `stop()` on a running controller clears the
running flag, forces the output line low and notifies once; `stop()` on
an already-stopped controller returns immediately, leaving the whole
controller state (configuration, switch state, output line) unchanged and
sending no status notification — so repeated calls are no-ops, but the
line-low guarantee belongs to the stopping transition only. -/
theorem c9_stop_idempotent_amended (c : Controller) :
    (c.running = true → c.stop = ({ c with running := false, gpioState := false }, true))
    ∧ (c.running = false → c.stop = (c, false)) := by
  constructor <;> intro h <;> simp [Controller.stop, h]

/-- Witness for C9 (amended): `stop()` on the stopped `testController`
is a no-op without notification. -/
theorem c9_stop_idempotent_amended_witness :
    testController.stop = (testController, false) :=
  (c9_stop_idempotent_amended testController).2 rfl

/-! ### D-Bus serialization helpers (`dbusify` / `normalize_variant_dict`,
src/dplus_sim.py lines 490-520) -/

/-- A Python value as handled by the serialization helpers: bool, int,
float, str, dict, list, the `Variant` wrapper object (which carries a
`value` attribute), and `None` standing for objects outside the
supported types. -/
inductive PyVal where
  | b (x : Bool)
  | i (n : ℤ)
  | f (q : ℚ)
  | s (st : String)
  | dict (entries : List (String × PyVal))
  | list (elems : List PyVal)
  | variant (sig : String) (v : PyVal)
  | pynone

/-- `_variant_signature` (lines 490-503): the `isinstance` chain checks
bool before int before float; anything that is not a bool, int, float,
str, dict or list raises `TypeError`. -/
def variantSignature : PyVal → Except String String
  | .b _ => .ok "b"
  | .i _ => .ok "i"
  | .f _ => .ok "d"
  | .s _ => .ok "s"
  | .dict _ => .ok "a{sv}"
  | .list _ => .ok "av"
  | _ => .error "Unsupported value for Variant"

/-- `dbusify` (lines 506-509) in the configuration where `dbus_next` is
importable (`Variant` is not `None`): wrap every top-level value in a
typed `Variant`; the dict comprehension raises the first `TypeError` from
`_variant_signature`. -/
def dbusify : List (String × PyVal) → Except String (List (String × PyVal))
  | [] => .ok []
  | (k, v) :: rest =>
    match variantSignature v with
    | .error e => .error e
    | .ok sig =>
      match dbusify rest with
      | .error e => .error e
      | .ok rest' => .ok ((k, PyVal.variant sig v) :: rest')

/-- `normalize_variant_dict` (lines 512-520): keys pass through `str`
(identity on strings); a value with a `value` attribute (the `Variant`
wrapper in this value universe) is unwrapped, all others kept. -/
def normalize_variant_dict (d : List (String × PyVal)) : List (String × PyVal) :=
  d.map fun kv =>
    (kv.1,
      match kv.2 with
      | .variant _ v => v
      | v => v)

lemma normalize_variant_dict_cons (k : String) (x : PyVal) (rest : List (String × PyVal)) :
    normalize_variant_dict ((k, x) :: rest)
      = (k, match x with | PyVal.variant _ v => v | v => v) :: normalize_variant_dict rest :=
  rfl

/-- The value types claim C10 allows at the top level of the dict. -/
def supportedVal : PyVal → Bool
  | .b _ => true
  | .i _ => true
  | .f _ => true
  | .s _ => true
  | .dict _ => true
  | .list _ => true
  | _ => false

/-- Claim C10: for a string-keyed dict whose top-level values are each a
bool, int, float, str, dict or list, `normalize_variant_dict (dbusify d)`
returns `d` unchanged (wrap-then-unwrap is the identity); and `dbusify`
raises `TypeError` whenever some value lies outside those types. -/
theorem c10_dbusify_roundtrip (d : List (String × PyVal)) :
    ((∀ kv ∈ d, supportedVal kv.2 = true) →
      ∃ w, dbusify d = Except.ok w ∧ normalize_variant_dict w = d)
    ∧ ((∃ kv ∈ d, supportedVal kv.2 = false) → ∃ e, dbusify d = Except.error e) := by
  induction d with
  | nil =>
    constructor
    · intro _
      exact ⟨[], rfl, rfl⟩
    · rintro ⟨kv, hmem, _⟩
      simp at hmem
  | cons hd tl ih =>
    obtain ⟨k, v⟩ := hd
    constructor
    · intro hall
      have hhd : supportedVal v = true := hall (k, v) (by simp)
      obtain ⟨w, hw, hnorm⟩ := ih.1 fun kv hkv => hall kv (by simp [hkv])
      have hsig : ∃ sig, variantSignature v = Except.ok sig := by
        cases v <;> simp_all [supportedVal, variantSignature]
      obtain ⟨sig, hsig⟩ := hsig
      refine ⟨(k, PyVal.variant sig v) :: w, ?_, ?_⟩
      · simp [dbusify, hsig, hw]
      · rw [normalize_variant_dict_cons, hnorm]
    · rintro ⟨kv, hmem, hbad⟩
      rcases List.mem_cons.mp hmem with heq | hmem'
      · subst heq
        simp only at hbad
        have hsig2 : variantSignature v = Except.error "Unsupported value for Variant" := by
          clear hmem ih
          cases v <;> simp_all [supportedVal, variantSignature]
        exact ⟨"Unsupported value for Variant", by simp [dbusify, hsig2]⟩
      · obtain ⟨e, he⟩ := ih.2 ⟨kv, hmem', hbad⟩
        cases hsig : variantSignature v with
        | error e2 => exact ⟨e2, by simp [dbusify, hsig]⟩
        | ok sig2 => exact ⟨e, by simp [dbusify, hsig, he]⟩

/-- Witness for C10 on a dict with a bool and a nested dict value. -/
theorem c10_dbusify_roundtrip_witness :
    ∃ w, dbusify [("a", PyVal.b true), ("n", PyVal.dict [("x", PyVal.i 5)])] = Except.ok w
      ∧ normalize_variant_dict w
          = [("a", PyVal.b true), ("n", PyVal.dict [("x", PyVal.i 5)])] :=
  (c10_dbusify_roundtrip [("a", PyVal.b true), ("n", PyVal.dict [("x", PyVal.i 5)])]).1
    (by decide)

end DPlusSim
